import Mathlib

/-!
Shallow embedding of the UAV strategic-deconfliction core:
the trajectory model (`src/flight_plan.py`), the pairwise conflict
detector (`src/conflict_detector.py`) and the mission verification
service (`src/verification_service.py`).

Conventions of the embedding:
* Python floats are modelled by exact arithmetic: coordinates and times
  are rationals, distances (which the source obtains via `np.sqrt`) and
  severities are real numbers built with `Real.sqrt`.
* Decimal literals of the source (`1e-3`, `1e-6`, `0.1`, `0.8`, `1.5`)
  are taken at their exact decimal value.
* Python `None` becomes `Option.none`; the `dataclass` validation in
  `FlightPlan.__post_init__` becomes proof fields of the structure, so
  every `FlightPlan` value of the model is one the Python constructor
  would have accepted.
-/

namespace Deconfliction

/-- Waypoint dataclass of `flight_plan.py`: a position in metres together
with a time stamp in seconds. -/
structure Waypoint where
  x : ℚ
  y : ℚ
  z : ℚ
  time : ℚ
deriving DecidableEq, Repr

/-- Euclidean chord distance between two waypoints,
`Waypoint.distance_to` of the source. -/
noncomputable def Waypoint.distance_to (w1 w2 : Waypoint) : ℝ :=
  Real.sqrt (((w1.x - w2.x) ^ 2 + (w1.y - w2.y) ^ 2 + (w1.z - w2.z) ^ 2 : ℚ))

/-- Position triple of a waypoint. -/
def Waypoint.pos (w : Waypoint) : ℚ × ℚ × ℚ := (w.x, w.y, w.z)

/-- FlightPlan dataclass of `flight_plan.py`.  The `start_time` datetime
field is informational only (never read by detection or verification) and
is omitted.  The three proof fields are exactly the three checks of
`FlightPlan.__post_init__`: at least two waypoints, positive speed,
priority at least 1. -/
structure FlightPlan where
  uav_id : String
  waypoints : List Waypoint
  speed : ℚ := 15
  priority : ℤ := 1
  valid_len : 2 ≤ waypoints.length
  valid_speed : 0 < speed
  valid_priority : 1 ≤ priority

theorem FlightPlan.wp_ne_nil (fp : FlightPlan) : fp.waypoints ≠ [] :=
  List.ne_nil_of_length_pos (lt_of_lt_of_le (by norm_num) fp.valid_len)

/-- Time of the first waypoint, `flight.waypoints[0].time` in the source. -/
def FlightPlan.startTime (fp : FlightPlan) : ℚ :=
  (fp.waypoints.head fp.wp_ne_nil).time

/-- Time of the last waypoint, `flight.waypoints[-1].time` in the source. -/
def FlightPlan.endTime (fp : FlightPlan) : ℚ :=
  (fp.waypoints.getLast fp.wp_ne_nil).time

/-- Waypoint times are non-decreasing along the plan.  This is the §3
invariant supplied by the generator; the Python constructor does not
re-check it, so it appears as a hypothesis where a claim assumes it. -/
def FlightPlan.timesSorted (fp : FlightPlan) : Prop :=
  fp.waypoints.Pairwise (fun a b => a.time ≤ b.time)

instance (fp : FlightPlan) : Decidable fp.timesSorted := by
  unfold FlightPlan.timesSorted; infer_instance

/-- Segment-search loop of `FlightPlan.interpolate_position`
(`flight_plan.py` lines 103-118): walk consecutive waypoint pairs, and on
the first segment whose time interval contains `t` either return the left
endpoint's position (zero-duration segment, no division) or blend
linearly by the time fraction; the final catch-all is the trailing
`return None` after the loop. -/
def findSeg : List Waypoint → ℚ → Option (ℚ × ℚ × ℚ)
  | w1 :: w2 :: rest, t =>
    if w1.time ≤ t ∧ t ≤ w2.time then
      if w2.time = w1.time then
        some (w1.x, w1.y, w1.z)
      else
        some (w1.x + (t - w1.time) / (w2.time - w1.time) * (w2.x - w1.x),
              w1.y + (t - w1.time) / (w2.time - w1.time) * (w2.y - w1.y),
              w1.z + (t - w1.time) / (w2.time - w1.time) * (w2.z - w1.z))
    else
      findSeg (w2 :: rest) t
  | _, _ => none

/-- Interpolated position of the vehicle at time `t`
(`FlightPlan.interpolate_position`): `none` when `t` lies outside the
plan's time span, otherwise the answer of the segment-search loop. -/
def FlightPlan.interpolate_position (fp : FlightPlan) (t : ℚ) :
    Option (ℚ × ℚ × ℚ) :=
  if t < fp.startTime ∨ t > fp.endTime then none
  else findSeg fp.waypoints t

/-- Conflict record of `conflict_detector.py`: identifiers of the two
vehicles, time of closest approach, both positions there, minimum
weighted separation and severity. -/
structure Conflict where
  uav1_id : String
  uav2_id : String
  time : ℚ
  position1 : ℚ × ℚ × ℚ
  position2 : ℚ × ℚ × ℚ
  distance : ℝ
  severity : ℝ

/-- Configuration of `ConflictDetector.__init__` with its default
values. -/
structure ConflictDetector where
  safety_distance : ℚ := 10
  time_step : ℚ := 1
  time_window : ℚ := 10
  vertical_weight : ℚ := mkRat 3 2

/-- Squared vertically-weighted separation of two positions:
`dx^2 + dy^2 + (dz*w)^2` with `dx, dy, dz` the coordinate differences and
`w` the vertical weight (`_check_pair` lines 180-184 before the square
root). -/
def wdistSq (w : ℚ) (p q : ℚ × ℚ × ℚ) : ℚ :=
  (p.1 - q.1) ^ 2 + (p.2.1 - q.2.1) ^ 2 + ((p.2.2 - q.2.2) * w) ^ 2

/-- Vertically-weighted separation `sqrt(dx^2 + dy^2 + (dz*w)^2)` of the
source. -/
noncomputable def wdist (w : ℚ) (p q : ℚ × ℚ × ℚ) : ℝ :=
  Real.sqrt ((wdistSq w p q : ℚ))

/-- Severity of a closest approach at distance `d` against safety
distance `s`: `clamp(1 - d/s, 0, 1)` (`_check_pair` lines 195-196). -/
noncomputable def severityFn (s d : ℝ) : ℝ :=
  max 0 (min 1 (1 - d / s))

/-- Fold of `ConflictDetector._calculate_max_segment_speed` over the
consecutive waypoint pairs: segments of non-positive duration are
skipped, and a segment's chord distance over its duration replaces the
running maximum when strictly larger. -/
noncomputable def maxSpeedGo : List Waypoint → ℝ → ℝ
  | w1 :: w2 :: rest, m =>
    if w2.time - w1.time ≤ 0 then maxSpeedGo (w2 :: rest) m
    else
      let seg := w1.distance_to w2 / ((w2.time : ℝ) - (w1.time : ℝ))
      maxSpeedGo (w2 :: rest) (if seg > m then seg else m)
  | _, m => m

/-- Maximum chord speed over the plan's segments, floored by the nominal
speed (`ConflictDetector._calculate_max_segment_speed`): the fold above
started from `max(speed, 0)`. -/
noncomputable def calculate_max_segment_speed (f : FlightPlan) : ℝ :=
  maxSpeedGo f.waypoints (max (f.speed : ℝ) 0)

/-- Adaptive sampling step of `ConflictDetector._get_effective_time_step`:
base step `max(time_step, 1e-3)`; if the summed maximum segment speeds
are at most `1e-6` the base step is kept, otherwise
`safety_distance / (relative_speed * 4)` clamped between a tenth of the
base step and the base step itself. -/
noncomputable def get_effective_time_step (D : ConflictDetector)
    (flight1 flight2 : FlightPlan) : ℝ :=
  let base_step : ℝ := max (D.time_step : ℝ) (1 / 1000)
  let relative_speed :=
    calculate_max_segment_speed flight1 + calculate_max_segment_speed flight2
  if relative_speed ≤ 1 / 1000000 then base_step
  else
    let desired_step := (D.safety_distance : ℝ) / (relative_speed * 4)
    let min_step := base_step * (1 / 10)
    min base_step (max desired_step min_step)

/-- Model of `np.linspace(a, b, n)`: `n` evenly spaced samples from `a`
to `b` inclusive. -/
def linspace (a b : ℚ) (n : ℕ) : List ℚ :=
  (List.range n).map (fun i => a + (i : ℚ) * (b - a) / ((n : ℚ) - 1))

/-- Number of samples taken by `_check_pair` over a non-degenerate
window: `max(ceil(duration / step) + 1, 2)` with
`duration = max(t_end - t_start, step)` (source lines 162-164). -/
noncomputable def sampleCount (D : ConflictDetector)
    (flight1 flight2 : FlightPlan) (t_start t_end : ℚ) : ℕ :=
  let step := get_effective_time_step D flight1 flight2
  let duration := max ((t_end - t_start : ℚ) : ℝ) step
  max (Int.toNat ⌈duration / step⌉ + 1) 2

/-- Sample times of `_check_pair` (source lines 159-165): the single
instant `t_start` when the window collapses to within `1e-6`, otherwise
`np.linspace` across the window at the adaptive sample count. -/
noncomputable def sampleTimes (D : ConflictDetector)
    (flight1 flight2 : FlightPlan) (t_start t_end : ℚ) : List ℚ :=
  if |t_start - t_end| ≤ mkRat 1 1000000 then [t_start]
  else linspace t_start t_end (sampleCount D flight1 flight2 t_start t_end)

/-- Running state of the closest-approach scan of `_check_pair`:
minimum weighted distance seen so far, its time, and both positions
there.  `none` is the initial state (`min_distance = inf`,
`conflict_time = None`). -/
structure Best where
  dist : ℝ
  time : ℚ
  pos1 : ℚ × ℚ × ℚ
  pos2 : ℚ × ℚ × ℚ

/-- Sampling loop of `_check_pair` (source lines 172-190): at each time
interpolate both plans, skip the sample when either position is absent,
and keep the sample with the strictly smallest weighted distance seen so
far. -/
noncomputable def scanMin (D : ConflictDetector)
    (flight1 flight2 : FlightPlan) : List ℚ → Option Best → Option Best
  | [], acc => acc
  | t :: ts, acc =>
    match flight1.interpolate_position t, flight2.interpolate_position t with
    | some p1, some p2 =>
      let d := wdist D.vertical_weight p1 p2
      let acc2 : Option Best :=
        match acc with
        | none => some ⟨d, t, p1, p2⟩
        | some b => if d < b.dist then some ⟨d, t, p1, p2⟩ else some b
      scanMin D flight1 flight2 ts acc2
    | _, _ => scanMin D flight1 flight2 ts acc

/-- Pairwise check `ConflictDetector._check_pair`: compute the time
overlap window, return no conflict when the gap exceeds `1e-6`, otherwise
scan the sample times for the global minimum weighted separation and emit
a single Conflict exactly when that minimum is strictly below the safety
distance. -/
noncomputable def check_pair (D : ConflictDetector)
    (flight1 flight2 : FlightPlan) : List Conflict :=
  let t_start := max flight1.startTime flight2.startTime
  let t_end := min flight1.endTime flight2.endTime
  if t_start > t_end ∧ t_start - t_end > mkRat 1 1000000 then []
  else
    match scanMin D flight1 flight2 (sampleTimes D flight1 flight2 t_start t_end) none with
    | none => []
    | some b =>
      if b.dist < (D.safety_distance : ℝ) then
        [⟨flight1.uav_id, flight2.uav_id, b.time, b.pos1, b.pos2, b.dist,
          severityFn (D.safety_distance : ℝ) b.dist⟩]
      else []

/-- Concatenation of the per-pair conflicts over every unordered pair in
input order: the nested loops of `find_conflicts` (source lines 82-85),
outer index ascending, inner index ranging over the later entries. -/
noncomputable def pairConflicts (D : ConflictDetector) :
    List FlightPlan → List Conflict
  | [] => []
  | f :: rest => (rest.map (check_pair D f)).flatten ++ pairConflicts D rest

/-- Comparison used to sort conflicts: ascending time of closest
approach (`conflicts.sort(key=lambda c: c.time)`). -/
def timeLE (a b : Conflict) : Bool := decide (a.time ≤ b.time)

/-- `ConflictDetector.find_conflicts`: all pairwise conflicts, stably
sorted by time of closest approach (Python's `list.sort` is stable;
`List.mergeSort` is the stable sort of the model). -/
noncomputable def find_conflicts (D : ConflictDetector)
    (flights : List FlightPlan) : List Conflict :=
  (pairConflicts D flights).mergeSort timeLE

/-- Model of `np.arange(a, b, s)` for the positive steps the detector
uses: samples `a + i*s` for `0 ≤ i < ceil((b - a)/s)`, which is empty
when `b ≤ a`.  A non-positive step (an error or empty range in numpy) is
mapped to the empty sample list. -/
def arangeQ (a b s : ℚ) : List ℚ :=
  if 0 < s then (List.range (Int.toNat ⌈(b - a) / s⌉)).map (fun i => a + (i : ℚ) * s)
  else []

/-- Sampling loop of `ConflictDetector.check_continuous_conflict`
(source lines 232-248): `false` as soon as either plan is absent at a
sample or the weighted distance reaches the safety distance, `true` when
every sample passes. -/
noncomputable def continuousGo (D : ConflictDetector)
    (flight1 flight2 : FlightPlan) : List ℚ → Bool
  | [] => true
  | t :: ts =>
    match flight1.interpolate_position t, flight2.interpolate_position t with
    | some p1, some p2 =>
      if wdist D.vertical_weight p1 p2 ≥ (D.safety_distance : ℝ) then false
      else continuousGo D flight1 flight2 ts
    | _, _ => false

/-- `ConflictDetector.check_continuous_conflict`: whether the two plans
stay in conflict at every `np.arange` sample of the window at the nominal
time step. -/
noncomputable def check_continuous_conflict (D : ConflictDetector)
    (flight1 flight2 : FlightPlan) (start_time end_time : ℚ) : Bool :=
  continuousGo D flight1 flight2 (arangeQ start_time end_time D.time_step)

/-- Minimum of a list of reals (`np.min` over a nonempty array). -/
noncomputable def listMin : List ℝ → ℝ
  | [] => 0
  | x :: xs => xs.foldl min x

/-- Maximum of a list of reals (`np.max` over a nonempty array). -/
noncomputable def listMax : List ℝ → ℝ
  | [] => 0
  | x :: xs => xs.foldl max x

/-- Statistics dictionary of `ConflictDetector.get_statistics`, modelled
as an association list from key strings to real values (counts are cast
to reals).  The empty-input branch returns the five zeroed entries of
source lines 310-316; the nonempty branch returns the seven entries of
lines 321-329 with `np.mean` as sum over length. -/
noncomputable def get_statistics (conflicts : List Conflict) :
    List (String × ℝ) :=
  if conflicts.isEmpty then
    [(("total_conflicts" : String), 0),
     (("avg_distance" : String), 0),
     (("min_distance" : String), 0),
     (("avg_severity" : String), 0),
     (("max_severity" : String), 0)]
  else
    let distances := conflicts.map Conflict.distance
    let severities := conflicts.map Conflict.severity
    [(("total_conflicts" : String), (conflicts.length : ℝ)),
     (("avg_distance" : String), distances.sum / (distances.length : ℝ)),
     (("min_distance" : String), listMin distances),
     (("max_distance" : String), listMax distances),
     (("avg_severity" : String), severities.sum / (severities.length : ℝ)),
     (("max_severity" : String), listMax severities),
     (("critical_conflicts" : String),
       ((severities.filter (fun s => decide ((4/5 : ℝ) < s))).length : ℝ))]

/-- Per-conflict detail record built by `verify_mission`
(`verification_service.py` lines 216-222). -/
structure ConflictDetail where
  location : ℚ × ℚ × ℚ
  time : ℚ
  conflicting_flight : String
  distance : ℝ
  severity : ℝ

/-- VerificationResult dataclass of `verification_service.py`. -/
structure VerificationResult where
  status : String
  primary_mission : FlightPlan
  conflicts : List Conflict
  conflict_details : List ConflictDetail

/-- State of `MissionVerificationService`: the registered schedule set
and the configuration fixed at construction. -/
structure MissionVerificationService where
  simulated_schedules : List FlightPlan
  safety_distance : ℚ
  time_step : ℚ
  detector : ConflictDetector

/-- Constructor `MissionVerificationService.__init__`: stores the
schedules and configuration and builds the detector from the safety
distance and time step (remaining detector fields keep their
defaults). -/
def mkService (schedules : List FlightPlan)
    (safety_distance : ℚ := 10) (time_step : ℚ := mkRat 1 2) :
    MissionVerificationService :=
  { simulated_schedules := schedules
    safety_distance := safety_distance
    time_step := time_step
    detector := { safety_distance := safety_distance, time_step := time_step } }

/-- Conflicts gathered by `verify_mission` (source lines 188-199): for
each registered schedule, the conflicts of `find_conflicts` on the pair,
kept only when they name the primary mission's identifier, concatenated
in registration order. -/
noncomputable def aggregatedConflicts (svc : MissionVerificationService)
    (primary : FlightPlan) : List Conflict :=
  (svc.simulated_schedules.map (fun s =>
    (find_conflicts svc.detector [primary, s]).filter
      (fun c => decide (c.uav1_id = primary.uav_id ∨ c.uav2_id = primary.uav_id)))).flatten

/-- `MissionVerificationService.verify_mission`, embedded with explicit
state passing: the returned pair carries the service state after the call
alongside the verification result.  The body only reads the service
state, computes the aggregated conflicts and their detail projections,
and sets the status from emptiness of the aggregate (source lines
188-232). -/
noncomputable def verify_mission (svc : MissionVerificationService)
    (primary : FlightPlan) :
    MissionVerificationService × VerificationResult :=
  let all_conflicts := aggregatedConflicts svc primary
  let conflict_details := all_conflicts.map (fun c =>
    { location := ((c.position1.1 + c.position2.1) / 2,
                   (c.position1.2.1 + c.position2.2.1) / 2,
                   (c.position1.2.2 + c.position2.2.2) / 2)
      time := c.time
      conflicting_flight :=
        if c.uav1_id = primary.uav_id then c.uav2_id else c.uav1_id
      distance := c.distance
      severity := c.severity : ConflictDetail })
  let status := if all_conflicts.length = 0 then ("CLEAR" : String)
                else ("CONFLICT_DETECTED" : String)
  (svc, { status := status
          primary_mission := primary
          conflicts := all_conflicts
          conflict_details := conflict_details })

/-- `MissionVerificationService.add_simulated_schedule`: appends to the
registered set. -/
def add_simulated_schedule (svc : MissionVerificationService)
    (flight : FlightPlan) : MissionVerificationService :=
  { svc with simulated_schedules := svc.simulated_schedules ++ [flight] }

/-- Search loop of `remove_simulated_schedule`: drop the first schedule
whose identifier matches, or report that none was found. -/
def removeFirstSchedule : List FlightPlan → String → Option (List FlightPlan)
  | [], _ => none
  | f :: fs, i =>
    if f.uav_id = i then some fs
    else (removeFirstSchedule fs i).map (fun l => f :: l)

/-- `MissionVerificationService.remove_simulated_schedule`: removes the
first schedule with the given identifier, reporting whether one was
found (removal of a missing identifier leaves the set unchanged). -/
def remove_simulated_schedule (svc : MissionVerificationService)
    (uav_id : String) : MissionVerificationService × Bool :=
  match removeFirstSchedule svc.simulated_schedules uav_id with
  | none => (svc, false)
  | some l => ({ svc with simulated_schedules := l }, true)

/-- Conflict with the two vehicles' roles exchanged: identifiers swapped,
positions swapped, time, distance and severity unchanged. -/
def swapConflict (c : Conflict) : Conflict :=
  ⟨c.uav2_id, c.uav1_id, c.time, c.position2, c.position1, c.distance, c.severity⟩

/-- Two conflicts name the same unordered pair of identifiers. -/
def samePair (c d : Conflict) : Prop :=
  (c.uav1_id = d.uav1_id ∧ c.uav2_id = d.uav2_id) ∨
    (c.uav1_id = d.uav2_id ∧ c.uav2_id = d.uav1_id)

/-- Concrete plan used by witnesses: straight flight from the origin,
seconds 0 to 10. -/
def planP : FlightPlan :=
  ⟨("P" : String), [⟨0, 0, 0, 0⟩, ⟨100, 0, 0, 10⟩], 15, 1,
    by decide, by decide, by decide⟩

/-- Concrete plan used by witnesses: parallel straight flight far from
`planP`, same seconds 0 to 10. -/
def planQ : FlightPlan :=
  ⟨("Q" : String), [⟨0, 1000, 0, 0⟩, ⟨100, 1000, 0, 10⟩], 15, 1,
    by decide, by decide, by decide⟩

/-- Concrete plan used by witnesses: flies seconds 100 to 110, far after
`planP` has landed. -/
def planLate : FlightPlan :=
  ⟨("L" : String), [⟨0, 0, 0, 100⟩, ⟨100, 0, 0, 110⟩], 15, 1,
    by decide, by decide, by decide⟩

/-- Concrete plan with an instantaneous jump: both waypoints carry time 0
but different positions (a zero-duration segment, valid per the data
model). -/
def planJump : FlightPlan :=
  ⟨("J" : String), [⟨0, 0, 0, 0⟩, ⟨1, 0, 0, 0⟩], 15, 1,
    by decide, by decide, by decide⟩

/-- Concrete conflict record used by counterexamples and witnesses. -/
noncomputable def conflictC0 : Conflict :=
  ⟨("A" : String), ("B" : String), 0, (0, 0, 0), (0, 0, 0), 5, 1/2⟩

/-! Theorems. -/

/-- Claim C5: for every pair of trajectories whose time spans do not
overlap — the start of the later span exceeds the end of the earlier span
by more than `1e-6` seconds — the pairwise check emits no conflict,
regardless of how spatially close the paths are. -/
theorem C5_no_temporal_overlap_no_conflict (D : ConflictDetector)
    (f1 f2 : FlightPlan)
    (h : max f1.startTime f2.startTime - min f1.endTime f2.endTime
          > mkRat 1 1000000) :
    check_pair D f1 f2 = [] := by
  have hgt : max f1.startTime f2.startTime > min f1.endTime f2.endTime := by
    have h0 : (0 : ℚ) < mkRat 1 1000000 := by norm_num
    linarith
  simp only [check_pair]
  split
  · rfl
  · rename_i hcond
    exact absurd ⟨hgt, h⟩ hcond

/-- Time gap between `planP` (lands at second 10) and `planLate` (takes
off at second 100) is far above the `1e-6` tolerance. -/
theorem planP_planLate_gap :
    max planP.startTime planLate.startTime
      - min planP.endTime planLate.endTime > mkRat 1 1000000 := by
  have h1 : max planP.startTime planLate.startTime = 100 := by decide
  have h2 : min planP.endTime planLate.endTime = 10 := by decide
  rw [h1, h2, Rat.mkRat_eq_div]
  norm_num

/-- Witness for C5 at the concrete plans `planP` (seconds 0-10) and
`planLate` (seconds 100-110). -/
theorem C5_witness :
    (max planP.startTime planLate.startTime
      - min planP.endTime planLate.endTime > mkRat 1 1000000)
    ∧ check_pair {} planP planLate = [] :=
  ⟨planP_planLate_gap,
    C5_no_temporal_overlap_no_conflict {} planP planLate planP_planLate_gap⟩

/-- Claim C10: `verify_mission` leaves the service's registered schedule
set, its configuration (safety distance, time step, detector) and the
primary trajectory unchanged; in the state-passing embedding the service
state returned by the call is the state it received, and the result holds
the primary plan as given. -/
theorem C10_verify_mission_frame (svc : MissionVerificationService)
    (primary : FlightPlan) :
    (verify_mission svc primary).1 = svc
    ∧ (verify_mission svc primary).1.simulated_schedules
        = svc.simulated_schedules
    ∧ (verify_mission svc primary).1.safety_distance = svc.safety_distance
    ∧ (verify_mission svc primary).1.time_step = svc.time_step
    ∧ (verify_mission svc primary).1.detector = svc.detector
    ∧ (verify_mission svc primary).2.primary_mission = primary :=
  ⟨rfl, rfl, rfl, rfl, rfl, rfl⟩

/-- Claim C6: `verify_mission` returns status CLEAR exactly when the
aggregated list of conflicts involving the primary's identifier is empty,
and CONFLICT_DETECTED otherwise; no other status ever occurs and the
call is total. -/
theorem C6_status_clear_iff (svc : MissionVerificationService)
    (primary : FlightPlan) :
    ((verify_mission svc primary).2.status = "CLEAR"
      ↔ (verify_mission svc primary).2.conflicts = [])
    ∧ ((verify_mission svc primary).2.status = "CLEAR"
        ∨ (verify_mission svc primary).2.status = "CONFLICT_DETECTED")
    ∧ (verify_mission svc primary).2.conflicts
        = aggregatedConflicts svc primary := by
  refine ⟨?_, ?_, rfl⟩ <;>
    cases h : aggregatedConflicts svc primary with
    | nil => simp [verify_mission, h]
    | cons c cs => simp [verify_mission, h]

/-- Auxiliary for C7: the sampling loop of `check_continuous_conflict`
answers `true` exactly when every sample time has both plans present and
strictly below the safety distance. -/
theorem continuousGo_eq_true_iff (D : ConflictDetector)
    (f1 f2 : FlightPlan) :
    ∀ ts : List ℚ, continuousGo D f1 f2 ts = true ↔
      ∀ t ∈ ts, ∃ p1 p2,
        f1.interpolate_position t = some p1
        ∧ f2.interpolate_position t = some p2
        ∧ wdist D.vertical_weight p1 p2 < (D.safety_distance : ℝ)
  | [] => by simp [continuousGo]
  | t :: ts => by
    rw [continuousGo]
    cases h1 : f1.interpolate_position t with
    | none =>
      simp only [List.mem_cons]
      constructor
      · intro hfalse
        cases hfalse
      · intro hall
        obtain ⟨p1, p2, hp1, _, _⟩ := hall t (Or.inl rfl)
        rw [h1] at hp1
        cases hp1
    | some p1 =>
      cases h2 : f2.interpolate_position t with
      | none =>
        simp only [List.mem_cons]
        constructor
        · intro hfalse
          cases hfalse
        · intro hall
          obtain ⟨q1, q2, _, hq2, _⟩ := hall t (Or.inl rfl)
          rw [h2] at hq2
          cases hq2
      | some p2 =>
        dsimp only
        by_cases hd : wdist D.vertical_weight p1 p2 ≥ (D.safety_distance : ℝ)
        · rw [if_pos hd]
          simp only [List.mem_cons]
          constructor
          · intro hfalse
            cases hfalse
          · intro hall
            obtain ⟨q1, q2, hq1, hq2, hlt⟩ := hall t (Or.inl rfl)
            rw [h1] at hq1
            rw [h2] at hq2
            cases hq1
            cases hq2
            exact absurd hlt (not_lt.mpr hd)
        · rw [if_neg hd]
          rw [continuousGo_eq_true_iff D f1 f2 ts]
          simp only [List.forall_mem_cons, h1, h2]
          constructor
          · intro hts
            refine ⟨⟨p1, p2, rfl, rfl, not_le.mp hd⟩, hts⟩
          · intro hboth
            exact hboth.2

/-- Claim C7: `check_continuous_conflict` returns true if and only if the
vertically-weighted distance is strictly below the safety distance at
every sample taken across the window at the nominal time step, with both
trajectories defined at every such sample. -/
theorem C7_check_continuous_conflict_iff (D : ConflictDetector)
    (f1 f2 : FlightPlan) (start_time end_time : ℚ) :
    check_continuous_conflict D f1 f2 start_time end_time = true ↔
      ∀ t ∈ arangeQ start_time end_time D.time_step, ∃ p1 p2,
        f1.interpolate_position t = some p1
        ∧ f2.interpolate_position t = some p2
        ∧ wdist D.vertical_weight p1 p2 < (D.safety_distance : ℝ) :=
  continuousGo_eq_true_iff D f1 f2 (arangeQ start_time end_time D.time_step)

/-- Claim C4: every conflict emitted by the pairwise check carries
severity `clamp(1 - distance/safety_distance, 0, 1)`; and as a function
of the minimum distance this clamp is monotonically decreasing, confined
to `[0, 1]`, and on distances between `0` and the safety distance it
vanishes exactly at the safety distance. -/
theorem C4_severity_clamp (s : ℝ) (hs : 0 < s) :
    (∀ (D : ConflictDetector) (f1 f2 : FlightPlan) (c : Conflict),
        c ∈ check_pair D f1 f2 →
          c.severity = severityFn (D.safety_distance : ℝ) c.distance)
    ∧ (∀ d e : ℝ, d ≤ e → severityFn s e ≤ severityFn s d)
    ∧ (∀ d : ℝ, 0 ≤ severityFn s d ∧ severityFn s d ≤ 1)
    ∧ (∀ d : ℝ, 0 ≤ d → d ≤ s → (severityFn s d = 0 ↔ d = s)) := by
  refine ⟨?_, ?_, ?_, ?_⟩
  · intro D f1 f2 c hc
    simp only [check_pair] at hc
    split at hc
    · cases hc
    · rename_i hcond
      cases hsc : scanMin D f1 f2
          (sampleTimes D f1 f2 (max f1.startTime f2.startTime)
            (min f1.endTime f2.endTime)) none with
      | none =>
        rw [hsc] at hc
        cases hc
      | some b =>
        rw [hsc] at hc
        dsimp only at hc
        split at hc
        · rw [List.mem_singleton] at hc
          subst hc
          rfl
        · cases hc
  · intro d e hde
    unfold severityFn
    have hdiv : d / s ≤ e / s := by gcongr
    exact max_le_max le_rfl (min_le_min le_rfl (by linarith))
  · intro d
    refine ⟨le_max_left 0 _, ?_⟩
    exact max_le zero_le_one (min_le_left 1 _)
  · intro d hd0 hds
    have hratio : d / s ≤ 1 := (div_le_one hs).mpr hds
    have hnn : 0 ≤ d / s := div_nonneg hd0 hs.le
    have h0 : 0 ≤ 1 - d / s := by linarith
    have h1 : 1 - d / s ≤ 1 := by linarith
    unfold severityFn
    rw [min_eq_right h1, max_eq_right h0]
    constructor
    · intro h
      have hone : d / s = 1 := by linarith
      have := (div_eq_one_iff_eq (ne_of_gt hs)).mp hone
      exact this
    · intro h
      subst h
      rw [div_self (ne_of_gt hs)]
      ring

/-- Positivity of the default safety distance, used to instantiate the
severity claim. -/
theorem ten_pos : (0 : ℝ) < 10 := by norm_num

/-- Witness for C4 at safety distance 10. -/
theorem C4_witness :
    (0 : ℝ) < 10
    ∧ ((∀ (D : ConflictDetector) (f1 f2 : FlightPlan) (c : Conflict),
          c ∈ check_pair D f1 f2 →
            c.severity = severityFn (D.safety_distance : ℝ) c.distance)
      ∧ (∀ d e : ℝ, d ≤ e → severityFn 10 e ≤ severityFn 10 d)
      ∧ (∀ d : ℝ, 0 ≤ severityFn 10 d ∧ severityFn 10 d ≤ 1)
      ∧ (∀ d : ℝ, 0 ≤ d → d ≤ 10 → (severityFn 10 d = 0 ↔ d = 10))) :=
  ⟨ten_pos, C4_severity_clamp 10 ten_pos⟩

/-- Head of a list known to be a given cons cell. -/
theorem list_head_eq {α : Type} (l : List α) (h : l ≠ []) {a : α}
    {r : List α} (hw : l = a :: r) : l.head h = a := by
  subst hw
  rfl

/-- Last element of a list known to be a given cons cell. -/
theorem list_getLast_eq {α : Type} (l : List α) (h : l ≠ []) {a : α}
    {r : List α} (hw : l = a :: r) :
    l.getLast h = (a :: r).getLast (List.cons_ne_nil a r) := by
  subst hw
  rfl

/-- Auxiliary for C9: the segment search succeeds whenever the query time
is at or after the first waypoint and some later waypoint is still at or
after the query time. -/
theorem findSeg_isSome_aux (t : ℚ) :
    ∀ (rest : List Waypoint) (w1 w2 : Waypoint),
      w1.time ≤ t → (∃ wk ∈ w2 :: rest, t ≤ wk.time) →
      (findSeg (w1 :: w2 :: rest) t).isSome := by
  intro rest
  induction rest with
  | nil =>
    intro w1 w2 h1 hex
    rw [findSeg]
    by_cases hc : w1.time ≤ t ∧ t ≤ w2.time
    · rw [if_pos hc]
      split <;> simp
    · obtain ⟨wk, hmem, hwk⟩ := hex
      rw [List.mem_singleton] at hmem
      subst hmem
      exact absurd ⟨h1, hwk⟩ hc
  | cons w3 rest2 ih =>
    intro w1 w2 h1 hex
    rw [findSeg]
    by_cases hc : w1.time ≤ t ∧ t ≤ w2.time
    · rw [if_pos hc]
      split <;> simp
    · rw [if_neg hc]
      push_neg at hc
      have hw2 : w2.time < t := hc h1
      apply ih w2 w3 hw2.le
      obtain ⟨wk, hmem, hwk⟩ := hex
      rcases List.mem_cons.mp hmem with h | h
      · subst h
        exact absurd hwk (not_le.mpr hw2)
      · exact ⟨wk, h, hwk⟩

/-- Claim C9: for every valid trajectory (the model's plans have at least
2 waypoints by construction; non-decreasing times are assumed) and every
query time inside the plan's span, `interpolate_position` returns a
position: the trailing fallback of the segment loop is unreachable. -/
theorem C9_interpolate_total (fp : FlightPlan) (_hs : fp.timesSorted)
    (t : ℚ) (h1 : fp.startTime ≤ t) (h2 : t ≤ fp.endTime) :
    (fp.interpolate_position t).isSome := by
  unfold FlightPlan.interpolate_position
  rw [if_neg (by push_neg; exact ⟨h1, h2⟩)]
  rcases hw : fp.waypoints with _ | ⟨w1, _ | ⟨w2, rest⟩⟩
  · exact absurd hw fp.wp_ne_nil
  · have := fp.valid_len
    rw [hw] at this
    simp at this
  · unfold FlightPlan.startTime at h1
    rw [list_head_eq fp.waypoints fp.wp_ne_nil hw] at h1
    unfold FlightPlan.endTime at h2
    rw [list_getLast_eq fp.waypoints fp.wp_ne_nil hw,
      List.getLast_cons (List.cons_ne_nil w2 rest)] at h2
    exact findSeg_isSome_aux t rest w1 w2 (by simpa using h1)
      ⟨(w2 :: rest).getLast (List.cons_ne_nil w2 rest),
        List.getLast_mem (List.cons_ne_nil w2 rest), h2⟩

/-- Sortedness and span bounds of `planP` at time 0, discharging the
hypotheses of the totality claim. -/
theorem planP_sorted_and_bounds :
    planP.timesSorted ∧ planP.startTime ≤ 0 ∧ (0 : ℚ) ≤ planP.endTime := by
  refine ⟨by decide, by decide, by decide⟩

/-- Witness for C9 at `planP` and query time 0. -/
theorem C9_witness :
    (planP.timesSorted ∧ planP.startTime ≤ 0 ∧ (0 : ℚ) ≤ planP.endTime)
    ∧ (planP.interpolate_position 0).isSome :=
  ⟨planP_sorted_and_bounds,
    C9_interpolate_total planP planP_sorted_and_bounds.1 0
      planP_sorted_and_bounds.2.1 planP_sorted_and_bounds.2.2⟩

/-- First waypoint of the list bearing the given time. -/
def firstWithTime (ws : List Waypoint) (t : ℚ) : Option Waypoint :=
  ws.find? (fun u => decide (u.time = t))

/-- Counterexample for C2: `planJump` is a valid trajectory (two
waypoints, non-decreasing times) whose second waypoint also carries time
0 but sits at position `(1, 0, 0)`; querying `interpolate_position` at
that waypoint's time returns the first waypoint's position `(0, 0, 0)`
instead, so an exact-time query does not return that waypoint's
position. -/
theorem C2_counterexample :
    planJump.timesSorted
    ∧ (planJump.waypoints.get ⟨1, by decide⟩).time = 0
    ∧ planJump.interpolate_position 0 = some ((0 : ℚ), (0 : ℚ), (0 : ℚ))
    ∧ planJump.interpolate_position 0
        ≠ some (Waypoint.pos (planJump.waypoints.get ⟨1, by decide⟩)) := by
  refine ⟨by decide, by decide, by decide, by decide⟩

/-- Auxiliary for C2: every member of a sorted waypoint list has time at
least the first waypoint's time. -/
theorem head_time_le_mem :
    ∀ (ws : List Waypoint) (h : ws ≠ []),
      ws.Pairwise (fun a b => a.time ≤ b.time) →
      ∀ wk ∈ ws, (ws.head h).time ≤ wk.time := by
  intro ws
  cases ws with
  | nil =>
    intro h
    exact absurd rfl h
  | cons w tail =>
    intro h hp wk hmem
    rw [List.head_cons]
    rcases List.mem_cons.mp hmem with hh | hh
    · subst hh
      exact le_refl _
    · exact (List.pairwise_cons.mp hp).1 wk hh

/-- Auxiliary for C2: every member of a sorted waypoint list has time at
most the last waypoint's time. -/
theorem time_le_getLast_time :
    ∀ (ws : List Waypoint) (h : ws ≠ []),
      ws.Pairwise (fun a b => a.time ≤ b.time) →
      ∀ wk ∈ ws, wk.time ≤ (ws.getLast h).time := by
  intro ws
  induction ws with
  | nil =>
    intro h
    exact absurd rfl h
  | cons w tail ih =>
    intro h hp wk hmem
    cases tail with
    | nil =>
      rw [List.mem_singleton] at hmem
      subst hmem
      exact le_refl _
    | cons w2 t2 =>
      rw [List.getLast_cons (List.cons_ne_nil w2 t2)]
      rcases List.mem_cons.mp hmem with hh | hh
      · subst hh
        exact le_trans
          ((List.pairwise_cons.mp hp).1 _
            (List.getLast_mem (List.cons_ne_nil w2 t2)))
          (le_refl _)
      · exact ih (List.cons_ne_nil w2 t2) (List.pairwise_cons.mp hp).2 wk hh

/-- Auxiliary for C2: on a sorted waypoint list, when the query time is
the time of some member, the segment search returns the position of the
first waypoint bearing that time. -/
theorem findSeg_first_time (t : ℚ) :
    ∀ (rest : List Waypoint) (w1 w2 : Waypoint),
      (w1 :: w2 :: rest).Pairwise (fun a b => a.time ≤ b.time) →
      (∃ wk ∈ w1 :: w2 :: rest, wk.time = t) →
      findSeg (w1 :: w2 :: rest) t
        = (firstWithTime (w1 :: w2 :: rest) t).map Waypoint.pos := by
  intro rest
  induction rest with
  | nil =>
    intro w1 w2 hp hex
    have h12 : w1.time ≤ w2.time :=
      (List.pairwise_cons.mp hp).1 w2 (List.mem_cons_self w2 [])
    rw [findSeg]
    by_cases hc : w1.time ≤ t ∧ t ≤ w2.time
    · rw [if_pos hc]
      by_cases hz : w2.time = w1.time
      · have ht1 : t = w1.time := le_antisymm (hz ▸ hc.2) hc.1
        rw [if_pos hz]
        unfold firstWithTime
        rw [List.find?_cons_of_pos _ (by simp [ht1])]
        rfl
      · rw [if_neg hz]
        by_cases ht1 : t = w1.time
        · unfold firstWithTime
          rw [List.find?_cons_of_pos _ (by simp [ht1])]
          subst ht1
          simp [Waypoint.pos]
        · by_cases ht2 : t = w2.time
          · unfold firstWithTime
            rw [List.find?_cons_of_neg _ (by simp; exact fun h => ht1 h.symm),
              List.find?_cons_of_pos _ (by simp [ht2])]
            subst ht2
            have hne : w2.time - w1.time ≠ 0 := sub_ne_zero.mpr hz
            rw [div_self hne]
            have hmap : (some w2).map Waypoint.pos = some w2.pos := rfl
            rw [hmap, Option.some_inj]
            unfold Waypoint.pos
            simp only [Prod.mk.injEq]
            exact ⟨by ring, by ring, by ring⟩
          · exfalso
            obtain ⟨wk, hmem, hwk⟩ := hex
            rcases List.mem_cons.mp hmem with h | h
            · subst h
              exact ht1 hwk.symm
            · rw [List.mem_singleton] at h
              subst h
              exact ht2 hwk.symm
    · exfalso
      push_neg at hc
      obtain ⟨wk, hmem, hwk⟩ := hex
      have hw1 : w1.time ≤ t := by
        rcases List.mem_cons.mp hmem with h | h
        · subst h
          exact hwk.le
        · rw [List.mem_singleton] at h
          subst h
          exact hwk ▸ h12
      have hw2 : w2.time < t := hc hw1
      rcases List.mem_cons.mp hmem with h | h
      · subst h
        exact absurd (hwk ▸ h12) (not_le.mpr hw2)
      · rw [List.mem_singleton] at h
        subst h
        exact absurd (hwk ▸ hw2) (lt_irrefl t)
  | cons w3 rest2 ih =>
    intro w1 w2 hp hex
    have hp1 := List.pairwise_cons.mp hp
    have h12 : w1.time ≤ w2.time := hp1.1 w2 (by simp)
    rw [findSeg]
    by_cases hc : w1.time ≤ t ∧ t ≤ w2.time
    · rw [if_pos hc]
      by_cases hz : w2.time = w1.time
      · have ht1 : t = w1.time := le_antisymm (hz ▸ hc.2) hc.1
        rw [if_pos hz]
        unfold firstWithTime
        rw [List.find?_cons_of_pos _ (by simp [ht1])]
        rfl
      · rw [if_neg hz]
        by_cases ht1 : t = w1.time
        · unfold firstWithTime
          rw [List.find?_cons_of_pos _ (by simp [ht1])]
          subst ht1
          simp [Waypoint.pos]
        · by_cases ht2 : t = w2.time
          · unfold firstWithTime
            rw [List.find?_cons_of_neg _ (by simp; exact fun h => ht1 h.symm),
              List.find?_cons_of_pos _ (by simp [ht2])]
            subst ht2
            have hne : w2.time - w1.time ≠ 0 := sub_ne_zero.mpr hz
            rw [div_self hne]
            have hmap : (some w2).map Waypoint.pos = some w2.pos := rfl
            rw [hmap, Option.some_inj]
            unfold Waypoint.pos
            simp only [Prod.mk.injEq]
            exact ⟨by ring, by ring, by ring⟩
          · exfalso
            have hlt2 : t < w2.time := lt_of_le_of_ne hc.2 ht2
            obtain ⟨wk, hmem, hwk⟩ := hex
            rcases List.mem_cons.mp hmem with h | h
            · subst h
              exact ht1 hwk.symm
            · rcases List.mem_cons.mp h with h | h
              · subst h
                exact ht2 hwk.symm
              · have hw2wk : w2.time ≤ wk.time :=
                  (List.pairwise_cons.mp hp1.2).1 wk h
                exact absurd (hwk ▸ hw2wk) (not_le.mpr hlt2)
    · push_neg at hc
      have hw1 : w1.time ≤ t := by
        obtain ⟨wk, hmem, hwk⟩ := hex
        rcases List.mem_cons.mp hmem with h | h
        · subst h
          exact hwk.le
        · exact hwk ▸ hp1.1 wk h
      have hw2 : w2.time < t := hc hw1
      rw [if_neg (by push_neg; intro h; exact hw2)]
      have hrhs : firstWithTime (w1 :: w2 :: w3 :: rest2) t
          = firstWithTime (w2 :: w3 :: rest2) t := by
        unfold firstWithTime
        rw [List.find?_cons_of_neg _ (by
          simp
          intro h
          exact absurd (h ▸ h12) (not_le.mpr hw2))]
      rw [hrhs]
      apply ih w2 w3 hp1.2
      obtain ⟨wk, hmem, hwk⟩ := hex
      rcases List.mem_cons.mp hmem with h | h
      · subst h
        exact absurd (hwk ▸ h12) (not_le.mpr hw2)
      · exact ⟨wk, h, hwk⟩

/-- Claim C2, amended: for every valid trajectory (at least 2 waypoints,
non-decreasing times), `interpolate_position` queried exactly at any
waypoint's time returns exactly the position of the first waypoint
bearing that time — in particular `first.position` at `first.time`, and
the queried waypoint's own position whenever no earlier waypoint shares
its time (hence always, when waypoint times are strictly increasing). -/
theorem C2_interpolate_first_with_time (fp : FlightPlan)
    (hs : fp.timesSorted) (k : ℕ) (hk : k < fp.waypoints.length) :
    ∃ w, firstWithTime fp.waypoints ((fp.waypoints.get ⟨k, hk⟩).time) = some w
      ∧ fp.interpolate_position ((fp.waypoints.get ⟨k, hk⟩).time)
          = some w.pos := by
  set t := (fp.waypoints.get ⟨k, hk⟩).time with ht
  have hmemk : fp.waypoints.get ⟨k, hk⟩ ∈ fp.waypoints :=
    List.get_mem fp.waypoints k hk
  have hex : ∃ wk ∈ fp.waypoints, wk.time = t := ⟨_, hmemk, rfl⟩
  have hstart : fp.startTime ≤ t := by
    obtain ⟨wk, hmem, hwk⟩ := hex
    exact hwk ▸ head_time_le_mem fp.waypoints fp.wp_ne_nil hs wk hmem
  have hend : t ≤ fp.endTime := by
    obtain ⟨wk, hmem, hwk⟩ := hex
    exact hwk ▸ time_le_getLast_time fp.waypoints fp.wp_ne_nil hs wk hmem
  unfold FlightPlan.interpolate_position
  rw [if_neg (by push_neg; exact ⟨hstart, hend⟩)]
  have hfw : (firstWithTime fp.waypoints t).isSome := by
    unfold firstWithTime
    rw [List.find?_isSome]
    obtain ⟨wk, hmem, hwk⟩ := hex
    exact ⟨wk, hmem, by simp [hwk]⟩
  obtain ⟨w, hw2⟩ := Option.isSome_iff_exists.mp hfw
  refine ⟨w, hw2, ?_⟩
  rcases hw : fp.waypoints with _ | ⟨w1, _ | ⟨w2, rest⟩⟩
  · exact absurd hw fp.wp_ne_nil
  · have := fp.valid_len
    rw [hw] at this
    simp at this
  · have hps : (w1 :: w2 :: rest).Pairwise (fun a b => a.time ≤ b.time) := by
      have hp := hs
      unfold FlightPlan.timesSorted at hp
      rw [hw] at hp
      exact hp
    have hex2 : ∃ wk ∈ w1 :: w2 :: rest, wk.time = t := by
      obtain ⟨wk, hmem, hwk⟩ := hex
      rw [hw] at hmem
      exact ⟨wk, hmem, hwk⟩
    rw [findSeg_first_time t rest w1 w2 hps hex2]
    rw [hw] at hw2
    rw [hw2]
    rfl

/-- Witness for the amended C2 at `planJump` (whose two waypoints share
time 0) and index 1. -/
theorem C2_amended_witness :
    (planJump.timesSorted ∧ 1 < planJump.waypoints.length)
    ∧ ∃ w, firstWithTime planJump.waypoints
          ((planJump.waypoints.get ⟨1, by decide⟩).time) = some w
        ∧ planJump.interpolate_position
            ((planJump.waypoints.get ⟨1, by decide⟩).time) = some w.pos :=
  ⟨⟨by decide, by decide⟩,
    C2_interpolate_first_with_time planJump (by decide) 1 (by decide)⟩

/-- Scan state with the two vehicles' roles exchanged. -/
def swapBest (b : Best) : Best := ⟨b.dist, b.time, b.pos2, b.pos1⟩

/-- Squared weighted separation is symmetric in the two positions. -/
theorem wdistSq_comm (w : ℚ) (p q : ℚ × ℚ × ℚ) :
    wdistSq w p q = wdistSq w q p := by
  unfold wdistSq
  ring

/-- Weighted separation is symmetric in the two positions. -/
theorem wdist_comm (w : ℚ) (p q : ℚ × ℚ × ℚ) :
    wdist w p q = wdist w q p := by
  unfold wdist
  rw [wdistSq_comm]

/-- Adaptive step is symmetric in the two plans. -/
theorem get_effective_time_step_comm (D : ConflictDetector)
    (f1 f2 : FlightPlan) :
    get_effective_time_step D f2 f1 = get_effective_time_step D f1 f2 := by
  unfold get_effective_time_step
  rw [add_comm (calculate_max_segment_speed f2)]

/-- Sample count is symmetric in the two plans. -/
theorem sampleCount_comm (D : ConflictDetector) (f1 f2 : FlightPlan)
    (a b : ℚ) : sampleCount D f2 f1 a b = sampleCount D f1 f2 a b := by
  unfold sampleCount
  rw [get_effective_time_step_comm]

/-- Sample times are symmetric in the two plans. -/
theorem sampleTimes_comm (D : ConflictDetector) (f1 f2 : FlightPlan)
    (a b : ℚ) : sampleTimes D f2 f1 a b = sampleTimes D f1 f2 a b := by
  unfold sampleTimes
  rw [sampleCount_comm]

/-- The closest-approach scan with the plans exchanged produces the
swapped state. -/
theorem scanMin_swap (D : ConflictDetector) (f1 f2 : FlightPlan) :
    ∀ (ts : List ℚ) (acc : Option Best),
      scanMin D f2 f1 ts (Option.map swapBest acc)
        = Option.map swapBest (scanMin D f1 f2 ts acc)
  | [], acc => by
    rw [scanMin, scanMin]
  | t :: ts, acc => by
    rw [scanMin, scanMin]
    cases h1 : f1.interpolate_position t with
    | none =>
      cases h2 : f2.interpolate_position t with
      | none =>
        exact scanMin_swap D f1 f2 ts acc
      | some p2 =>
        exact scanMin_swap D f1 f2 ts acc
    | some p1 =>
      cases h2 : f2.interpolate_position t with
      | none =>
        exact scanMin_swap D f1 f2 ts acc
      | some p2 =>
        dsimp only
        rw [wdist_comm D.vertical_weight p2 p1]
        cases acc with
        | none =>
          exact scanMin_swap D f1 f2 ts
            (some ⟨wdist D.vertical_weight p1 p2, t, p1, p2⟩)
        | some b =>
          dsimp only [Option.map, swapBest]
          by_cases hlt : wdist D.vertical_weight p1 p2 < b.dist
          · rw [if_pos hlt, if_pos hlt]
            exact scanMin_swap D f1 f2 ts
              (some ⟨wdist D.vertical_weight p1 p2, t, p1, p2⟩)
          · rw [if_neg hlt, if_neg hlt]
            exact scanMin_swap D f1 f2 ts (some b)

/-- The pairwise check with the plans exchanged yields the swapped
conflicts: identical time, distance and severity, the identifiers and the
two positions exchanged. -/
theorem check_pair_swap (D : ConflictDetector) (f1 f2 : FlightPlan) :
    check_pair D f2 f1 = (check_pair D f1 f2).map swapConflict := by
  simp only [check_pair]
  rw [max_comm f2.startTime f1.startTime, min_comm f2.endTime f1.endTime,
    sampleTimes_comm]
  by_cases hcond :
      max f1.startTime f2.startTime > min f1.endTime f2.endTime
        ∧ max f1.startTime f2.startTime - min f1.endTime f2.endTime
            > mkRat 1 1000000
  · rw [if_pos hcond, if_pos hcond]
    rfl
  · rw [if_neg hcond, if_neg hcond]
    have hswap : scanMin D f2 f1
        (sampleTimes D f1 f2 (max f1.startTime f2.startTime)
          (min f1.endTime f2.endTime)) none
        = Option.map swapBest (scanMin D f1 f2
            (sampleTimes D f1 f2 (max f1.startTime f2.startTime)
              (min f1.endTime f2.endTime)) none) :=
      scanMin_swap D f1 f2
        (sampleTimes D f1 f2 (max f1.startTime f2.startTime)
          (min f1.endTime f2.endTime)) none
    rw [hswap]
    cases scanMin D f1 f2
        (sampleTimes D f1 f2 (max f1.startTime f2.startTime)
          (min f1.endTime f2.endTime)) none with
    | none => rfl
    | some b =>
      dsimp only [Option.map, swapBest]
      by_cases hdist : b.dist < (D.safety_distance : ℝ)
      · rw [if_pos hdist, if_pos hdist]
        rfl
      · rw [if_neg hdist, if_neg hdist]
        rfl

/-- The pairwise check emits at most one conflict. -/
theorem check_pair_length_le_one (D : ConflictDetector)
    (f1 f2 : FlightPlan) : (check_pair D f1 f2).length ≤ 1 := by
  simp only [check_pair]
  split
  · simp
  · cases scanMin D f1 f2
        (sampleTimes D f1 f2 (max f1.startTime f2.startTime)
          (min f1.endTime f2.endTime)) none with
    | none => simp
    | some b =>
      dsimp only
      split <;> simp

/-- Sorting leaves lists of at most one element unchanged. -/
theorem mergeSort_short (le : Conflict → Conflict → Bool) :
    ∀ (l : List Conflict), l.length ≤ 1 → l.mergeSort le = l
  | [], _ => by simp
  | [a], _ => by simp
  | a :: b :: l, h => by
    exfalso
    simp at h

/-- Claim C3: for every pair of flight plans, running `find_conflicts` on
the pair in either order yields the same conflicts with identical time,
distance and severity, with the two positions and the two identifiers
swapped. -/
theorem C3_find_conflicts_symmetric (D : ConflictDetector)
    (A B : FlightPlan) :
    find_conflicts D [B, A] = (find_conflicts D [A, B]).map swapConflict := by
  unfold find_conflicts
  have hBA : pairConflicts D [B, A] = check_pair D B A := by
    unfold pairConflicts pairConflicts pairConflicts
    simp
  have hAB : pairConflicts D [A, B] = check_pair D A B := by
    unfold pairConflicts pairConflicts pairConflicts
    simp
  rw [hBA, hAB]
  rw [mergeSort_short timeLE _ (check_pair_length_le_one D B A),
    mergeSort_short timeLE _ (check_pair_length_le_one D A B)]
  exact check_pair_swap D A B

/-- Counterexample for C8: the statistics dictionary never contains a
minimum of the severities (no `min_severity` key, here at a one-conflict
list), and for the empty list it also lacks the maximum distance and the
critical count. -/
theorem C8_counterexample :
    (get_statistics [conflictC0]).lookup ("min_severity") = none
    ∧ (get_statistics []).lookup ("max_distance") = none
    ∧ (get_statistics []).lookup ("critical_conflicts") = none :=
  ⟨rfl, rfl, rfl⟩

/-- Claim C8, amended: for a nonempty conflict list `get_statistics`
returns the count, the minimum, maximum and mean of the distances, the
mean and maximum (but no minimum) of the severities, and the count of
conflicts of severity strictly above `0.8`; for the empty list it returns
only the five zeroed entries (count, mean and minimum distance, mean and
maximum severity), with no maximum-distance or critical-count entry. -/
theorem C8_statistics_amended :
    (get_statistics [] =
      [(("total_conflicts" : String), 0), (("avg_distance" : String), 0),
       (("min_distance" : String), 0), (("avg_severity" : String), 0),
       (("max_severity" : String), 0)])
    ∧ ∀ (c : Conflict) (cs : List Conflict),
        ((get_statistics (c :: cs)).lookup ("total_conflicts")
            = some (((c :: cs).length : ℝ)))
        ∧ ((get_statistics (c :: cs)).lookup ("avg_distance")
            = some (((c :: cs).map Conflict.distance).sum
                / ((((c :: cs).map Conflict.distance).length : ℝ))))
        ∧ ((get_statistics (c :: cs)).lookup ("min_distance")
            = some (listMin ((c :: cs).map Conflict.distance)))
        ∧ ((get_statistics (c :: cs)).lookup ("max_distance")
            = some (listMax ((c :: cs).map Conflict.distance)))
        ∧ ((get_statistics (c :: cs)).lookup ("avg_severity")
            = some (((c :: cs).map Conflict.severity).sum
                / ((((c :: cs).map Conflict.severity).length : ℝ))))
        ∧ ((get_statistics (c :: cs)).lookup ("max_severity")
            = some (listMax ((c :: cs).map Conflict.severity)))
        ∧ ((get_statistics (c :: cs)).lookup ("critical_conflicts")
            = some (((((c :: cs).map Conflict.severity).filter
                (fun s => decide ((4/5 : ℝ) < s))).length : ℝ)))
        ∧ ((get_statistics (c :: cs)).lookup ("min_severity") = none) :=
  ⟨rfl, fun c cs => ⟨rfl, rfl, rfl, rfl, rfl, rfl, rfl, rfl⟩⟩

/-- Shape of the pairwise check's result: empty, or exactly one conflict
naming the two plans in order. -/
theorem check_pair_shape (D : ConflictDetector) (f1 f2 : FlightPlan) :
    check_pair D f1 f2 = []
    ∨ ∃ b : Best, check_pair D f1 f2
        = [⟨f1.uav_id, f2.uav_id, b.time, b.pos1, b.pos2, b.dist,
            severityFn (D.safety_distance : ℝ) b.dist⟩] := by
  simp only [check_pair]
  split
  · exact Or.inl rfl
  · cases scanMin D f1 f2
        (sampleTimes D f1 f2 (max f1.startTime f2.startTime)
          (min f1.endTime f2.endTime)) none with
    | none => exact Or.inl rfl
    | some b =>
      dsimp only
      split
      · exact Or.inr ⟨b, rfl⟩
      · exact Or.inl rfl

/-- Every conflict emitted by the pairwise check names the two plans in
the order they were given. -/
theorem check_pair_ids (D : ConflictDetector) (f1 f2 : FlightPlan)
    {c : Conflict} (hc : c ∈ check_pair D f1 f2) :
    c.uav1_id = f1.uav_id ∧ c.uav2_id = f2.uav_id := by
  rcases check_pair_shape D f1 f2 with h | ⟨b, h⟩
  · rw [h] at hc
    cases hc
  · rw [h] at hc
    rw [List.mem_singleton] at hc
    subst hc
    exact ⟨rfl, rfl⟩

/-- Every identifier in the pairwise concatenation comes from the input
plans. -/
theorem pairConflicts_ids (D : ConflictDetector) :
    ∀ (fs : List FlightPlan) (c : Conflict), c ∈ pairConflicts D fs →
      c.uav1_id ∈ fs.map FlightPlan.uav_id
        ∧ c.uav2_id ∈ fs.map FlightPlan.uav_id := by
  intro fs
  induction fs with
  | nil =>
    intro c hc
    simp [pairConflicts] at hc
  | cons f rest ih =>
    intro c hc
    rw [pairConflicts] at hc
    rcases List.mem_append.mp hc with h | h
    · rcases List.mem_flatten.mp h with ⟨l, hl, hcl⟩
      rcases List.mem_map.mp hl with ⟨g, hg, rfl⟩
      have hid := check_pair_ids D f g hcl
      constructor
      · rw [hid.1]
        exact List.mem_map.mpr ⟨f, List.mem_cons_self f rest, rfl⟩
      · rw [hid.2]
        exact List.mem_map.mpr ⟨g, List.mem_cons_of_mem f hg, rfl⟩
    · have := ih c h
      exact ⟨List.mem_of_mem_tail this.1, List.mem_of_mem_tail this.2⟩

/-- Lists of at most one element are vacuously pairwise-related. -/
theorem pairwise_of_short {R : Conflict → Conflict → Prop} :
    ∀ {l : List Conflict}, l.length ≤ 1 → l.Pairwise R
  | [], _ => List.Pairwise.nil
  | [a], _ => by simp
  | a :: b :: l, h => by simp at h

/-- Naming the same unordered identifier pair is symmetric. -/
theorem samePair_symm {c d : Conflict} (h : samePair c d) : samePair d c := by
  unfold samePair at h ⊢
  rcases h with ⟨h1, h2⟩ | ⟨h1, h2⟩
  · exact Or.inl ⟨h1.symm, h2.symm⟩
  · exact Or.inr ⟨h2.symm, h1.symm⟩

/-- The pairwise concatenation contains at most one conflict per
unordered pair of identifiers, provided the input identifiers are
pairwise distinct. -/
theorem pairConflicts_pairwise_distinct (D : ConflictDetector) :
    ∀ (fs : List FlightPlan),
      fs.Pairwise (fun f g => f.uav_id ≠ g.uav_id) →
      (pairConflicts D fs).Pairwise (fun c d => ¬ samePair c d) := by
  intro fs
  induction fs with
  | nil =>
    intro _
    simp [pairConflicts]
  | cons f rest ih =>
    intro hp
    obtain ⟨hf, hrest⟩ := List.pairwise_cons.mp hp
    rw [pairConflicts, List.pairwise_append]
    refine ⟨?_, ih hrest, ?_⟩
    · rw [List.pairwise_flatten]
      constructor
      · intro l hl
        rcases List.mem_map.mp hl with ⟨g, _, rfl⟩
        exact pairwise_of_short (check_pair_length_le_one D f g)
      · rw [List.pairwise_map]
        refine List.Pairwise.imp_of_mem ?_ hrest
        intro g1 g2 hg1 hg2 hneq x hx y hy hsp
        have hx1 := check_pair_ids D f g1 hx
        have hy1 := check_pair_ids D f g2 hy
        unfold samePair at hsp
        rcases hsp with ⟨_, h2⟩ | ⟨h1, h2⟩
        · exact hneq (by rw [← hx1.2, ← hy1.2, h2])
        · exact hf g2 hg2 (by rw [← hx1.1, ← hy1.2, h1])
    · intro x hx y hy hsp
      rcases List.mem_flatten.mp hx with ⟨l, hl, hxl⟩
      rcases List.mem_map.mp hl with ⟨g, _, rfl⟩
      have hxid := check_pair_ids D f g hxl
      have hyid := pairConflicts_ids D rest y hy
      unfold samePair at hsp
      rcases hsp with ⟨h1, _⟩ | ⟨h1, _⟩
      · rcases List.mem_map.mp hyid.1 with ⟨g2, hg2, hgid⟩
        exact hf g2 hg2 (by rw [← hxid.1, h1, ← hgid])
      · rcases List.mem_map.mp hyid.2 with ⟨g2, hg2, hgid⟩
        exact hf g2 hg2 (by rw [← hxid.1, h1, ← hgid])

/-- Transitivity of the sort comparison of `find_conflicts`. -/
theorem timeLE_trans : ∀ (a b c : Conflict),
    timeLE a b → timeLE b c → timeLE a c := by
  intro a b c hab hbc
  simp only [timeLE, decide_eq_true_eq] at hab hbc ⊢
  exact le_trans hab hbc

/-- Totality of the sort comparison of `find_conflicts`. -/
theorem timeLE_total : ∀ (a b : Conflict), timeLE a b || timeLE b a := by
  intro a b
  simp only [timeLE]
  rcases le_total a.time b.time with h | h
  · simp [h]
  · simp [h]

/-- Claim C1: `find_conflicts` returns a list sorted by time of closest
approach ascending, containing at most one conflict per unordered pair of
distinct input flights, and the sort is stable: any two conflicts of the
raw pairwise concatenation in non-decreasing time order keep their
relative order in the output. -/
theorem C1_find_conflicts_sorted_one_per_pair (D : ConflictDetector)
    (flights : List FlightPlan)
    (hids : flights.Pairwise (fun f g => f.uav_id ≠ g.uav_id)) :
    (find_conflicts D flights).Pairwise (fun a b => a.time ≤ b.time)
    ∧ (find_conflicts D flights).Pairwise (fun c d => ¬ samePair c d)
    ∧ ∀ c d : Conflict, [c, d].Sublist (pairConflicts D flights) →
        c.time ≤ d.time → [c, d].Sublist (find_conflicts D flights) := by
  refine ⟨?_, ?_, ?_⟩
  · have hs := List.sorted_mergeSort timeLE_trans timeLE_total
      (pairConflicts D flights)
    exact hs.imp (fun h => by simpa [timeLE] using h)
  · unfold find_conflicts
    rw [(List.mergeSort_perm (pairConflicts D flights) timeLE).pairwise_iff
      (fun h hsp => h (samePair_symm hsp))]
    exact pairConflicts_pairwise_distinct D flights hids
  · intro c d hsub hct
    exact List.pair_sublist_mergeSort timeLE_trans timeLE_total
      (decide_eq_true hct) hsub

/-- Witness for C1 at the two-plan set `[planP, planQ]` with distinct
identifiers. -/
theorem C1_witness :
    ([planP, planQ].Pairwise (fun f g => f.uav_id ≠ g.uav_id))
    ∧ ((find_conflicts {} [planP, planQ]).Pairwise
          (fun a b => a.time ≤ b.time)
      ∧ (find_conflicts {} [planP, planQ]).Pairwise
          (fun c d => ¬ samePair c d)
      ∧ ∀ c d : Conflict, [c, d].Sublist (pairConflicts {} [planP, planQ]) →
          c.time ≤ d.time → [c, d].Sublist (find_conflicts {} [planP, planQ])) :=
  ⟨by decide, C1_find_conflicts_sorted_one_per_pair {} [planP, planQ] (by decide)⟩

end Deconfliction
